import Mathlib

/-!
Verification of the Paddle_OCR web application core.

Shallow embedding of `app.py`: the line-reconstruction algorithm
(`process_ocr_result`), the extension allow-list (`allowed_file`), and the
three Flask endpoints (`/ocr-batch`, `/ocr-batch-augmented`, `/ocr`), with
the external collaborators (file storage, the PaddleOCR detector, the OpenCV
transform) modelled as per-item oracles that either succeed with a value or
raise with a message, mirroring Python exceptions with `Except`.

Coordinates are rationals (`ℚ`): the Python code only adds, halves and
compares coordinates, operations that are exact, so `ℚ` models them
faithfully on every input the claims quantify over.
-/

namespace PaddleOCR

/-- A 2-D point `(x, y)`, one corner of a detection polygon. -/
structure Pt where
  x : ℚ
  y : ℚ
deriving DecidableEq, Repr

/-- A bounding polygon: 4 corner points, detector convention top-left,
top-right, bottom-right, bottom-left (`box[0] .. box[3]` in the source). -/
structure Box where
  p0 : Pt
  p1 : Pt
  p2 : Pt
  p3 : Pt
deriving DecidableEq, Repr

/-- One raw detection `item = [bounding_box, (text, confidence_score)]`
from the PaddleOCR result. -/
structure OCRItem where
  box : Box
  text : String
  confidence : ℚ
deriving DecidableEq, Repr

/-- The raw result of `ocr_model.ocr(...)`: a list (one entry per page);
the code only reads `result[0]`.  The Python truthiness tests
`not result` / `not result[0]` are emptiness tests on these lists. -/
abbrev OCRResult := List (List OCRItem)

/-- The dict `{'text': text, 'y': y_coord, 'x': x_coord}` built in
`process_ocr_result`. -/
structure TextCoord where
  text : String
  y : ℚ
  x : ℚ
deriving DecidableEq, Repr

/-- Anchors: `y_coord = (box[0][1] + box[2][1]) / 2`, `x_coord = box[0][0]`
(app.py lines 54-55). -/
def toTextCoord (it : OCRItem) : TextCoord :=
  { text := it.text
    y := (it.box.p0.y + it.box.p2.y) / 2
    x := it.box.p0.x }

/-- The sort key of `text_coordinates.sort(key=lambda item: (item['y'], item['x']))`
(app.py line 60): lexicographic on the pair `(y, x)`. -/
def rYX (a b : TextCoord) : Prop :=
  a.y < b.y ∨ (a.y = b.y ∧ a.x ≤ b.x)

instance : DecidableRel rYX := fun a b => by
  unfold rYX; exact instDecidableOr

/-- The sort key of `current_line.sort(key=lambda x: x['x'])`
(app.py lines 76, 81). -/
def rX (a b : TextCoord) : Prop := a.x ≤ b.x

instance : DecidableRel rX := fun a b => by
  unfold rX; exact inferInstance

/-- Python's `list.sort` is a stable sort; `List.insertionSort` with a total
preorder computes exactly the stable sort for that key, so it models
`text_coordinates.sort(key=lambda item: (item['y'], item['x']))`. -/
def sortKeyYX (l : List TextCoord) : List TextCoord :=
  l.insertionSort rYX

/-- Model of `current_line.sort(key=lambda x: x['x'])`, the stable in-line sort. -/
def sortByX (l : List TextCoord) : List TextCoord :=
  l.insertionSort rX

/-- The threshold `line_threshold = 18` (app.py line 63). -/
def line_threshold : ℚ := 18

/-- The grouping loop of `process_ocr_result` (app.py lines 68-82).
The open line is carried as `line_init ++ [last]`, so that `last` is
`current_line[-1]`, the last fragment appended to the open line; `acc`
is the list of closed lines in top-to-bottom order.

* `|cur.y - last.y| ≤ thr` → append `cur` to the open line;
* otherwise → close the open line and start a new one with `cur`;
* at the end of the walk the open line is closed (app.py lines 80-82). -/
def clusterGo (thr : ℚ) :
    List TextCoord → List TextCoord → TextCoord →
    List (List TextCoord) → List (List TextCoord)
  | [], line_init, last, acc => acc ++ [line_init ++ [last]]
  | cur :: rest, line_init, last, acc =>
    if |cur.y - last.y| ≤ thr then
      clusterGo thr rest (line_init ++ [last]) cur acc
    else
      clusterGo thr rest [] cur (acc ++ [line_init ++ [last]])

/-- The lines produced by the grouping loop, started with
`current_line = [text_coordinates[0]]` (app.py line 68). -/
def clusterLines (thr : ℚ) : List TextCoord → List (List TextCoord)
  | [] => []
  | t :: ts => clusterGo thr ts [] t []

/-- Closing a line: `current_line.sort(key=lambda x: x['x'])` then
`' '.join([item['text'] for item in current_line])` (app.py lines 76-77,
81-82). -/
def formatLine (line : List TextCoord) : String :=
  String.intercalate " " ((sortByX line).map (·.text))

/-- Embedding of `process_ocr_result` (app.py lines 37-84).  The Python code formats each
line at the moment it is closed; formatting each closed line afterwards with
`formatLine` produces the identical string since a closed line is never
touched again. -/
def process_ocr_result (result : OCRResult) : String :=
  match result with
  | [] => "No text found."          -- `if not result`
  | first :: _ =>
    if first.isEmpty then "No text found."   -- `... or not result[0]`
    else
      let text_coordinates := first.map toTextCoord
      let sorted := sortKeyYX text_coordinates
      if sorted.isEmpty then ""     -- `if not text_coordinates` (dead branch)
      else String.intercalate "\n"
        ((clusterLines line_threshold sorted).map formatLine)

/-- The allow-list `ALLOWED_EXTENSIONS` of app.py line 15: png, jpg, jpeg. -/
def ALLOWED_EXTENSIONS : List String := ["png", "jpg", "jpeg"]

/-- ASCII lowercasing of one character, the behaviour of Python's
`str.lower` on the alphabet the extension comparison can distinguish. -/
def lowerChar (c : Char) : Char :=
  if 65 ≤ c.toNat ∧ c.toNat ≤ 90 then Char.ofNat (c.toNat + 32) else c

/-- Model of `s.lower()`. -/
def lowerStr (s : String) : String := (s.data.map lowerChar).asString

/-- Model of `filename.rsplit('.', 1)[1]`: the substring after the last `'.'`
(only evaluated when a dot is present; on a dot-free string this model
returns the whole string, which the guard below makes irrelevant). -/
def extAfterLastDot (s : String) : String :=
  ((s.data.reverse.takeWhile (fun c => c ≠ '.')).reverse).asString

/-- Embedding of `allowed_file` (app.py lines 32-35):
`'.' in filename and filename.rsplit('.', 1)[1].lower() in ALLOWED_EXTENSIONS`. -/
def allowed_file (filename : String) : Bool :=
  filename.data.contains '.' &&
    ALLOWED_EXTENSIONS.contains (lowerStr (extAfterLastDot filename))

/-- Model of `len(text.split())`: Python `str.split()` with no argument splits on
whitespace runs and drops empty tokens. -/
def wordCount (s : String) : Nat :=
  ((s.split (fun c => c.isWhitespace)).filter (fun t => t ≠ "")).length

/-! ## Orchestration model

The external collaborators are modelled per item as oracles: each external
call either returns a value (`Except.ok`) or raises a Python exception
carrying a message (`Except.error`).  Side effects on temporary storage and
calls to the external detector/transform are recorded as an event trace. -/

/-- Observable side effects of processing one item.

* `acquire` — `file.save(filepath)` succeeded: the temp file now exists;
* `release` — `os.remove(filepath)` ran in the `finally` block;
* `detect` — one call to `ocr_model.ocr(...)`;
* `transform` — the OpenCV preprocessing chain (imread/cvtColor/threshold). -/
inductive Ev where
  | acquire
  | release
  | detect
  | transform
deriving DecidableEq, Repr

deriving instance DecidableEq for Except

/-- Oracle for one item of the simple batch (and single-file) pipeline:
what `file.save` and `ocr_model.ocr` would do for this item. -/
structure ItemWorld where
  save : Except String Unit
  detect : Except String OCRResult
deriving DecidableEq, Repr

/-- One uploaded file: its `filename` plus the behaviour of the external
world for it.  A werkzeug `FileStorage` is truthy iff its filename is
non-empty, which models the `if file and ...` test. -/
structure BatchFile where
  filename : String
  world : ItemWorld
deriving DecidableEq, Repr

/-- One entry of the `results` list of `/ocr-batch` (app.py lines 119-131).
The error dict also carries `'text': ''`, a constant field. -/
inductive Outcome where
  | success (filename text : String)
  | error (filename errMsg : String)
deriving DecidableEq, Repr

def Outcome.filename : Outcome → String
  | .success fn _ => fn
  | .error fn _ => fn

def Outcome.isError : Outcome → Bool
  | .success _ _ => false
  | .error _ _ => true

/-- The loop body of `/ocr-batch` for one file (app.py lines 109-131):
extension check, `try: save; ocr; append success`, `except: append error`,
`finally: remove the temp file if it exists`.  Returns the appended
outcome and the item's event trace. -/
def processItem (f : BatchFile) : Outcome × List Ev :=
  if f.filename ≠ "" ∧ allowed_file f.filename then
    match f.world.save with
    | .error msg => (.error f.filename msg, [])
    | .ok _ =>
      match f.world.detect with
      | .error msg => (.error f.filename msg, [.acquire, .detect, .release])
      | .ok res =>
        (.success f.filename (process_ocr_result res), [.acquire, .detect, .release])
  else
    (.error (if f.filename ≠ "" then f.filename else "Unknown") "File type not allowed", [])

/-- Endpoint `/ocr-batch` (app.py lines 93-133).  Here `none` models a request without a
`'files'` field; the guard models
`if not files or all(file.filename == '' for file in files)`.
`Except.error` is a whole-batch HTTP 400; `Except.ok` is the 200 response
`{'results': results}`. -/
def upload_and_ocr_batch (req : Option (List BatchFile)) : Except String (List Outcome) :=
  match req with
  | none => .error "No files part in the request"
  | some files =>
    if files.isEmpty || files.all (fun f => f.filename == "") then
      .error "No files selected for uploading"
    else
      .ok (files.map (fun f => (processItem f).1))

/-- Oracle for one item of the augmented pipeline: the behaviours of
`file.save`, the first `ocr_model.ocr(filepath)` (identity variant), the
OpenCV preprocessing chain, and the second `ocr_model.ocr(augmented_img)`
(enhanced variant). -/
structure AugWorld where
  save : Except String Unit
  detectOriginal : Except String OCRResult
  transform : Except String Unit
  detectEnhanced : Except String OCRResult
deriving DecidableEq, Repr

/-- One uploaded file of an augmented batch. -/
structure AugFile where
  filename : String
  world : AugWorld
deriving DecidableEq, Repr

/-- One entry of the `results` list of `/ocr-batch-augmented`
(app.py lines 183-200): on success `text` is the enhanced-variant text,
`original_text` the identity-variant text, and `variants` the two
`(name, word_count)` pairs.  The error dict also carries `'text': ''`. -/
inductive AugOutcome where
  | success (filename text original_text : String) (variants : List (String × Nat))
  | error (filename errMsg : String)
deriving DecidableEq, Repr

def AugOutcome.isError : AugOutcome → Bool
  | .success _ _ _ _ => false
  | .error _ _ => true

/-- Every recognized-text string the outcome dict carries. -/
def AugOutcome.texts : AugOutcome → List String
  | .success _ t ot _ => [t, ot]
  | .error _ _ => []

/-- The loop body of `/ocr-batch-augmented` for one file (app.py lines
155-200): extension check, then inside `try`: save, OCR the original image,
format its text, preprocess with OpenCV, OCR the preprocessed image, format
its text, append the success dict; any exception is caught and appended as
an error dict; the `finally` block removes the temp file if it exists. -/
def processAugItem (f : AugFile) : AugOutcome × List Ev :=
  if f.filename ≠ "" ∧ allowed_file f.filename then
    match f.world.save with
    | .error msg => (.error f.filename msg, [])
    | .ok _ =>
      match f.world.detectOriginal with
      | .error msg => (.error f.filename msg, [.acquire, .detect, .release])
      | .ok origRes =>
        let original_text := process_ocr_result origRes
        match f.world.transform with
        | .error msg => (.error f.filename msg, [.acquire, .detect, .transform, .release])
        | .ok _ =>
          match f.world.detectEnhanced with
          | .error msg =>
            (.error f.filename msg, [.acquire, .detect, .transform, .detect, .release])
          | .ok augRes =>
            let augmented_text := process_ocr_result augRes
            (.success f.filename augmented_text original_text
                [("Original", wordCount original_text),
                 ("Grayscale + Threshold", wordCount augmented_text)],
             [.acquire, .detect, .transform, .detect, .release])
  else
    (.error (if f.filename ≠ "" then f.filename else "Unknown") "File type not allowed", [])

/-- Endpoint `/ocr-batch-augmented` (app.py lines 136-202), same envelope as the
simple batch. -/
def upload_and_ocr_batch_augmented (req : Option (List AugFile)) :
    Except String (List AugOutcome) :=
  match req with
  | none => .error "No files part in the request"
  | some files =>
    if files.isEmpty || files.all (fun f => f.filename == "") then
      .error "No files selected for uploading"
    else
      .ok (files.map (fun f => (processAugItem f).1))

/-- Response of the single-file endpoint `/ocr`.

* `okText` — HTTP 200 with the formatted text;
* `httpError` — a structured HTTP 4xx/5xx JSON error;
* `unhandled` — an exception that escaped the handler (in `/ocr`,
  `file.save` at app.py line 222 runs *outside* the `try` block). -/
inductive SingleResp where
  | okText (text : String)
  | httpError (code : Nat) (msg : String)
  | unhandled (msg : String)
deriving DecidableEq, Repr

/-- Endpoint `/ocr` (app.py lines 206-235).  Note that `file.save(filepath)` sits outside
the `try`, so a save failure escapes unhandled (but then nothing was
acquired); the `try/finally` around the OCR call guarantees the release. -/
def upload_and_ocr (req : Option BatchFile) : SingleResp × List Ev :=
  match req with
  | none => (.httpError 400 "No file part in the request", [])
  | some f =>
    if f.filename = "" then (.httpError 400 "No file selected for uploading", [])
    else if allowed_file f.filename then
      match f.world.save with
      | .error msg => (.unhandled msg, [])
      | .ok _ =>
        match f.world.detect with
        | .error msg =>
          (.httpError 500 ("An error occurred during OCR processing: " ++ msg),
           [.acquire, .detect, .release])
        | .ok res =>
          (.okText (process_ocr_result res), [.acquire, .detect, .release])
    else (.httpError 400 "File type not allowed", [])

/-! ## Properties used in the theorem statements -/

/-- The chaining test of the grouping loop (app.py line 73): the new
fragment is within the threshold of the *previous* fragment. -/
def withinStep (thr : ℚ) (a b : TextCoord) : Prop := |b.y - a.y| ≤ thr

/-- Two consecutive lines are separated: the fragment that opened the
second line was farther than the threshold from the last fragment of the
first line. -/
def lineBreakRel (thr : ℚ) (l₁ l₂ : List TextCoord) : Prop :=
  ∀ a ∈ l₁.getLast?, ∀ b ∈ l₂.head?, thr < |b.y - a.y|

/-- Invariants of the line decomposition produced by the grouping loop:
every line is non-empty, consecutive members of a line are step-wise within
the threshold, and consecutive lines are separated by more than the
threshold. -/
structure GoodLines (thr : ℚ) (lines : List (List TextCoord)) : Prop where
  nonempty : ∀ l ∈ lines, l ≠ []
  chained : ∀ l ∈ lines, l.Chain' (withinStep thr)
  breaks : lines.Chain' (lineBreakRel thr)

/-- A well-scoped temp-storage trace: either nothing was acquired and
nothing released, or exactly one acquire opens the trace and exactly one
release closes it. -/
def scopedTrace (ev : List Ev) : Prop :=
  (Ev.acquire ∉ ev ∧ Ev.release ∉ ev) ∨
  ∃ mid, ev = Ev.acquire :: mid ++ [Ev.release] ∧
    Ev.acquire ∉ mid ∧ Ev.release ∉ mid

/-- Split a character list at every occurrence of `sep` (the semantics of
Python's `str.split(sep)` and of `String.splitOn` for a one-character
separator): consecutive separators yield empty groups. -/
def splitColl (sep : Char) : List Char → List (List Char)
  | [] => [[]]
  | c :: rest =>
    match splitColl sep rest with
    | [] => [[]]
    | grp :: grps =>
      if c = sep then [] :: grp :: grps else (c :: grp) :: grps

/-- The observation procedure named by claim C10: split the document on
newlines, then split each line at the space joins. -/
def recoverTexts (s : String) : List String :=
  ((splitColl '\n' s.data).map
    (fun line => (splitColl ' ' line).map List.asString)).flatten

instance : IsTrans TextCoord rYX := ⟨by
  intro a b c hab hbc
  rcases hab with h1 | ⟨h1, h1x⟩ <;> rcases hbc with h2 | ⟨h2, h2x⟩
  all_goals first
    | exact Or.inl (by linarith)
    | exact Or.inr ⟨by linarith, by linarith⟩⟩

instance : IsTotal TextCoord rYX := ⟨by
  intro a b
  rcases lt_trichotomy a.y b.y with h | h | h
  · exact Or.inl (Or.inl h)
  · rcases le_total a.x b.x with hx | hx
    · exact Or.inl (Or.inr ⟨h, hx⟩)
    · exact Or.inr (Or.inr ⟨h.symm, hx⟩)
  · exact Or.inr (Or.inl h)⟩

instance : IsTrans TextCoord rX := ⟨fun _ _ _ hab hbc => le_trans hab hbc⟩

instance : IsTotal TextCoord rX := ⟨fun a b => le_total a.x b.x⟩

/-! ## Concrete inputs used in examples and witnesses -/

/-- An axis-aligned detection box with top-left `(x0, y0)` and bottom-right
`(x2, y2)`. -/
def mkBox (x0 y0 x2 y2 : ℚ) : Box := ⟨⟨x0, y0⟩, ⟨x2, y0⟩, ⟨x2, y2⟩, ⟨x0, y2⟩⟩

/-- The drift example of the spec: three fragments whose anchors are
`y = 100, 115, 130` (step deltas 15 and 15, total spread 30). -/
def driftItems : List OCRItem :=
  [⟨mkBox 0 95 10 105, "A", 1⟩, ⟨mkBox 0 110 10 120, "B", 1⟩,
   ⟨mkBox 0 125 10 135, "C", 1⟩]

/-- A batch file whose every external call succeeds and whose detector
finds nothing. -/
def okPngFile : BatchFile :=
  { filename := "a.png", world := { save := .ok (), detect := .ok [] } }

/-- A second succeeding file, `.jpg`. -/
def okJpgFile : BatchFile :=
  { filename := "c.jpg", world := { save := .ok (), detect := .ok [] } }

/-- A `.gif` file (unsupported extension); its world would succeed if it
were ever consulted. -/
def gifFile : BatchFile :=
  { filename := "b.gif", world := { save := .ok (), detect := .ok [] } }

/-- A batch file whose detector call raises. -/
def failFile : BatchFile :=
  { filename := "d.png", world := { save := .ok (), detect := .error "boom" } }

/-- Augmented-mode file on which the identity variant's detector raises
while the enhanced variant's detector would have succeeded. -/
def c5File : AugFile :=
  { filename := "a.png"
    world := { save := .ok ()
               detectOriginal := .error "detector failed"
               transform := .ok ()
               detectEnhanced := .ok [[⟨mkBox 0 0 10 10, "HELLO", 1⟩]] } }

/-- Augmented-mode file on which the identity variant succeeds and the
OpenCV transform then raises. -/
def c4File : AugFile :=
  { filename := "a.png"
    world := { save := .ok ()
               detectOriginal := .ok [[⟨mkBox 0 0 10 10, "hi", 1⟩]]
               transform := .error "cv2 failed"
               detectEnhanced := .ok [] } }

/-- Augmented-mode file on which every step succeeds. -/
def augOkFile : AugFile :=
  { filename := "a.png"
    world := { save := .ok ()
               detectOriginal := .ok [[⟨mkBox 0 0 10 10, "hi", 1⟩]]
               transform := .ok ()
               detectEnhanced := .ok [[⟨mkBox 0 0 10 10, "hi there", 1⟩]] } }

/-! ## Helper lemmas about the grouping loop -/

theorem clusterGo_flatten (thr : ℚ) :
    ∀ (rest line_init : List TextCoord) (last : TextCoord)
      (acc : List (List TextCoord)),
      (clusterGo thr rest line_init last acc).flatten
        = acc.flatten ++ line_init ++ [last] ++ rest := by
  intro rest
  induction rest with
  | nil => intro line_init last acc; simp [clusterGo]
  | cons cur rest ih =>
    intro line_init last acc
    simp only [clusterGo]
    split
    · rw [ih]; simp
    · rw [ih]; simp

theorem goodLines_singleton (thr : ℚ) (t : TextCoord) : GoodLines thr [[t]] := by
  refine ⟨by simp, ?_, List.chain'_singleton _⟩
  intro l hl
  simp at hl
  subst hl
  exact List.chain'_singleton _

theorem goodLines_extend (thr : ℚ) (acc : List (List TextCoord))
    (l : List TextCoord) (last cur : TextCoord)
    (hlast : l.getLast? = some last) (h : GoodLines thr (acc ++ [l]))
    (hle : |cur.y - last.y| ≤ thr) :
    GoodLines thr (acc ++ [l ++ [cur]]) := by
  obtain ⟨hne, hch, hbr⟩ := h
  have hlne : l ≠ [] := by
    intro h0; rw [h0] at hlast; simp at hlast
  have hhead : (l ++ [cur]).head? = l.head? := by
    cases l with
    | nil => exact absurd rfl hlne
    | cons a l' => simp
  refine ⟨?_, ?_, ?_⟩
  · intro m hm
    rcases List.mem_append.mp hm with hm | hm
    · exact hne m (List.mem_append.mpr (Or.inl hm))
    · simp at hm; subst hm; simp
  · intro m hm
    rcases List.mem_append.mp hm with hm | hm
    · exact hch m (List.mem_append.mpr (Or.inl hm))
    · simp at hm
      subst hm
      rw [List.chain'_append]
      refine ⟨hch l (by simp), List.chain'_singleton _, ?_⟩
      intro x hx y hy
      simp at hy
      subst hy
      rw [hlast] at hx
      simp at hx
      subst hx
      exact hle
  · rw [List.chain'_append] at hbr ⊢
    obtain ⟨h1, _, h3⟩ := hbr
    refine ⟨h1, List.chain'_singleton _, ?_⟩
    intro x hx y hy
    simp at hy
    subst hy
    intro a ha b hb
    rw [hhead] at hb
    exact h3 x hx l (by simp) a ha b hb

theorem goodLines_close (thr : ℚ) (acc : List (List TextCoord))
    (l : List TextCoord) (last cur : TextCoord)
    (hlast : l.getLast? = some last) (h : GoodLines thr (acc ++ [l]))
    (hgt : ¬ |cur.y - last.y| ≤ thr) :
    GoodLines thr ((acc ++ [l]) ++ [[cur]]) := by
  obtain ⟨hne, hch, hbr⟩ := h
  refine ⟨?_, ?_, ?_⟩
  · intro m hm
    rcases List.mem_append.mp hm with hm | hm
    · exact hne m hm
    · simp at hm; subst hm; simp
  · intro m hm
    rcases List.mem_append.mp hm with hm | hm
    · exact hch m hm
    · simp at hm; subst hm; exact List.chain'_singleton _
  · rw [List.chain'_append]
    refine ⟨hbr, List.chain'_singleton _, ?_⟩
    intro x hx y hy
    simp at hy
    subst hy
    rw [List.getLast?_concat] at hx
    simp at hx
    subst hx
    intro a ha b hb
    simp at hb
    subst hb
    rw [hlast] at ha
    simp at ha
    subst ha
    exact not_le.mp hgt

theorem clusterGo_good (thr : ℚ) :
    ∀ (rest line_init : List TextCoord) (last : TextCoord)
      (acc : List (List TextCoord)),
      GoodLines thr (acc ++ [line_init ++ [last]]) →
      GoodLines thr (clusterGo thr rest line_init last acc) := by
  intro rest
  induction rest with
  | nil =>
    intro line_init last acc h
    simpa [clusterGo] using h
  | cons cur rest ih =>
    intro line_init last acc h
    simp only [clusterGo]
    split
    next hle =>
      exact ih _ _ _
        (goodLines_extend thr acc (line_init ++ [last]) last cur
          (List.getLast?_concat _) h hle)
    next hgt =>
      exact ih _ _ _
        (goodLines_close thr acc (line_init ++ [last]) last cur
          (List.getLast?_concat _) h hgt)

theorem clusterLines_good (thr : ℚ) (l : List TextCoord) :
    GoodLines thr (clusterLines thr l) := by
  cases l with
  | nil => exact ⟨by simp [clusterLines], by simp [clusterLines], by simp [clusterLines]⟩
  | cons t ts => exact clusterGo_good thr ts [] t [] (goodLines_singleton thr t)

theorem clusterLines_flatten (thr : ℚ) (l : List TextCoord) :
    (clusterLines thr l).flatten = l := by
  cases l with
  | nil => rfl
  | cons t ts => simpa using clusterGo_flatten thr ts [] t []

theorem process_eq_intercalate (first : List OCRItem) (rest : OCRResult)
    (h : first ≠ []) :
    process_ocr_result (first :: rest)
      = String.intercalate "\n"
          ((clusterLines line_threshold (sortKeyYX (first.map toTextCoord))).map
            formatLine) := by
  have h1 : first.isEmpty = false := by simpa [List.isEmpty_iff] using h
  have h2 : (sortKeyYX (first.map toTextCoord)).isEmpty = false := by
    have hlen : (sortKeyYX (first.map toTextCoord)).length = first.length := by
      simp [sortKeyYX, List.length_insertionSort]
    cases he : (sortKeyYX (first.map toTextCoord)).isEmpty with
    | false => rfl
    | true =>
      rw [List.isEmpty_iff] at he
      rw [he] at hlen
      simp at hlen
      exact absurd (List.length_eq_zero.mp hlen.symm) h
  simp only [process_ocr_result, h1, h2, Bool.false_eq_true, if_false]

theorem flattenMap_perm (f g : List TextCoord → List String)
    (l : List (List TextCoord)) (h : ∀ x ∈ l, (f x).Perm (g x)) :
    ((l.map f).flatten).Perm ((l.map g).flatten) := by
  induction l with
  | nil => simp
  | cons a l ih =>
    simp only [List.map_cons, List.flatten_cons]
    exact (h a (by simp)).append (ih (fun x hx => h x (by simp [hx])))

theorem batch_ok (files : List BatchFile) (h : ∃ f ∈ files, f.filename ≠ "") :
    upload_and_ocr_batch (some files)
      = .ok (files.map (fun f => (processItem f).1)) := by
  obtain ⟨f, hf, hfn⟩ := h
  have hg : (files.isEmpty || files.all (fun f => f.filename == "")) = false := by
    rw [Bool.or_eq_false_iff]
    constructor
    · rw [Bool.eq_false_iff]
      intro he
      rw [List.isEmpty_iff] at he
      subst he
      simp at hf
    · rw [Bool.eq_false_iff]
      intro hall
      rw [List.all_eq_true] at hall
      exact hfn (by simpa using hall f hf)
  simp [upload_and_ocr_batch, hg]

theorem batch_aug_ok (files : List AugFile) (h : ∃ f ∈ files, f.filename ≠ "") :
    upload_and_ocr_batch_augmented (some files)
      = .ok (files.map (fun f => (processAugItem f).1)) := by
  obtain ⟨f, hf, hfn⟩ := h
  have hg : (files.isEmpty || files.all (fun f => f.filename == "")) = false := by
    rw [Bool.or_eq_false_iff]
    constructor
    · rw [Bool.eq_false_iff]
      intro he
      rw [List.isEmpty_iff] at he
      subst he
      simp at hf
    · rw [Bool.eq_false_iff]
      intro hall
      rw [List.all_eq_true] at hall
      exact hfn (by simpa using hall f hf)
  simp [upload_and_ocr_batch_augmented, hg]

theorem scopedTrace_nil : scopedTrace [] := Or.inl (by simp)

theorem scopedTrace_of_mid (mid : List Ev) (h1 : Ev.acquire ∉ mid)
    (h2 : Ev.release ∉ mid) :
    scopedTrace (Ev.acquire :: mid ++ [Ev.release]) :=
  Or.inr ⟨mid, rfl, h1, h2⟩

theorem dropWhile_head_false {α : Type} (p : α → Bool) (l : List α) (x : α)
    (xs : List α) (h : l.dropWhile p = x :: xs) : p x = false := by
  induction l with
  | nil => simp [List.dropWhile] at h
  | cons a l ih =>
    rw [List.dropWhile_cons] at h
    cases hp : p a with
    | true => rw [hp] at h; simp at h; exact ih h
    | false =>
      rw [hp] at h
      simp at h
      rw [← h.1]
      exact hp

theorem takeWhile_append_cons {α : Type} (p : α → Bool) (l₁ : List α) (a : α)
    (l₂ : List α) (h : ∀ x ∈ l₁, p x = true) (ha : p a = false) :
    (l₁ ++ a :: l₂).takeWhile p = l₁ := by
  induction l₁ with
  | nil => simp [List.takeWhile_cons, ha]
  | cons b l ih =>
    have hb : p b = true := h b (by simp)
    simp [List.takeWhile_cons, hb, ih (fun x hx => h x (by simp [hx]))]

theorem extAfterLastDot_eq (s : String) (pre ext : List Char)
    (hdata : s.data = pre ++ '.' :: ext) (hne : '.' ∉ ext) :
    extAfterLastDot s = ext.asString := by
  unfold extAfterLastDot
  rw [hdata]
  have hrev : (pre ++ '.' :: ext).reverse = ext.reverse ++ '.' :: pre.reverse := by
    simp
  rw [hrev, takeWhile_append_cons _ _ _ _ ?_ (by decide), List.reverse_reverse]
  intro x hx
  have : x ∈ ext := List.mem_reverse.mp hx
  simp only [decide_eq_true_eq]
  intro heq
  exact hne (heq ▸ this)

theorem contains_dot_decomp (s : String) (h : s.data.contains '.' = true) :
    ∃ pre ext : List Char, s.data = pre ++ '.' :: ext ∧ '.' ∉ ext
      ∧ extAfterLastDot s = ext.asString := by
  have hmem : '.' ∈ s.data := by simpa using h
  have hmemr : '.' ∈ s.data.reverse := List.mem_reverse.mpr hmem
  cases hdw : s.data.reverse.dropWhile (fun c => decide (c ≠ '.')) with
  | nil =>
    exfalso
    have heq : s.data.reverse.takeWhile (fun c => decide (c ≠ '.'))
        = s.data.reverse := by
      have := List.takeWhile_append_dropWhile
        (p := fun c => decide (c ≠ '.')) (l := s.data.reverse)
      rw [hdw] at this
      simpa using this
    have : decide (('.' : Char) ≠ '.') = true := by
      have hm : ('.' : Char) ∈ s.data.reverse.takeWhile (fun c => decide (c ≠ '.')) := by
        rw [heq]; exact hmemr
      exact List.mem_takeWhile_imp (p := fun c => decide (c ≠ '.')) hm
    simp at this
  | cons x xs =>
    have hx : decide (x ≠ '.') = false :=
      dropWhile_head_false (fun c => decide (c ≠ '.')) s.data.reverse x xs hdw
    have hxeq : x = '.' := by simpa using hx
    subst hxeq
    have hr : s.data.reverse
        = s.data.reverse.takeWhile (fun c => decide (c ≠ '.')) ++ '.' :: xs := by
      conv_lhs => rw [← List.takeWhile_append_dropWhile
        (p := fun c => decide (c ≠ '.')) (l := s.data.reverse)]
      rw [hdw]
    refine ⟨xs.reverse,
      (s.data.reverse.takeWhile (fun c => decide (c ≠ '.'))).reverse, ?_, ?_, rfl⟩
    · have h2 := congrArg List.reverse hr
      rw [List.reverse_reverse] at h2
      refine h2.trans ?_
      simp
    · intro hmem'
      have : ('.' : Char) ∈ s.data.reverse.takeWhile (fun c => decide (c ≠ '.')) :=
        List.mem_reverse.mp hmem'
      have := List.mem_takeWhile_imp this
      simp at this

/-! ## Claims -/

/-- Claim C1: the clusterer first stably sorts the fragments by the pair
`(anchorY, anchorX)` ascending, then walks the sorted sequence once,
appending a fragment to the open line if and only if it is within 18 of the
*last* fragment added to that line (the walk is characterised by: the lines
concatenate back to the sorted sequence, consecutive members of a line are
step-wise within the threshold, and consecutive lines break by more than
the threshold); in particular anchors 100, 115, 130 chain into a single
line although the total spread 30 exceeds the threshold. -/
theorem C1_cluster_sort_then_chain (items : List OCRItem)
    (sorted : List TextCoord) (lines : List (List TextCoord))
    (hs : sorted = sortKeyYX (items.map toTextCoord))
    (hl : lines = clusterLines line_threshold sorted) :
    sorted.Perm (items.map toTextCoord)
    ∧ List.Sorted rYX sorted
    ∧ lines.flatten = sorted
    ∧ (∀ l ∈ lines, l ≠ [])
    ∧ (∀ l ∈ lines, l.Chain' (withinStep line_threshold))
    ∧ lines.Chain' (lineBreakRel line_threshold)
    ∧ process_ocr_result [driftItems] = "A B C" := by
  subst hs hl
  refine ⟨List.perm_insertionSort _ _, List.sorted_insertionSort _ _,
    clusterLines_flatten _ _,
    (clusterLines_good _ _).nonempty, (clusterLines_good _ _).chained,
    (clusterLines_good _ _).breaks, ?_⟩
  norm_num [process_ocr_result, driftItems, mkBox, toTextCoord, sortKeyYX,
    List.insertionSort, List.orderedInsert, rYX, clusterLines, clusterGo,
    line_threshold, formatLine, sortByX, rX]
  rfl

/-- Witness for C1 at the drift example. -/
theorem C1_cluster_sort_then_chain_witness :
    (clusterLines line_threshold (sortKeyYX (driftItems.map toTextCoord))).flatten
      = sortKeyYX (driftItems.map toTextCoord) :=
  (C1_cluster_sort_then_chain driftItems _ _ rfl rfl).2.2.1

/-- Claim C8: an empty detector result (no pages, or an empty first page)
yields the fixed sentinel `"No text found."`, which is not the empty
string; `process_ocr_result` is total, so no error is possible. -/
theorem C8_empty_sentinel (rest : OCRResult) :
    process_ocr_result [] = "No text found."
    ∧ process_ocr_result ([] :: rest) = "No text found."
    ∧ "No text found." ≠ "" :=
  ⟨rfl, rfl, by decide⟩

/-- Witness for C8 at the one-empty-page result. -/
theorem C8_empty_sentinel_witness :
    process_ocr_result ([] :: []) = "No text found." :=
  (C8_empty_sentinel []).2.1

/-- Claim C9: the formatter sorts each line's fragments by `anchorX`
ascending, stably on ties (a set of mutually tied fragments keeps its
relative order), joins a line's texts with exactly one space (an empty text
yields consecutive spaces), and joins the lines with newlines in the
clusterer's order. -/
theorem C9_formatter (line : List TextCoord) (first : List OCRItem)
    (rest : OCRResult) (hfirst : first ≠ []) :
    (sortByX line).Perm line
    ∧ List.Sorted rX (sortByX line)
    ∧ (∀ c : List TextCoord, c.Sublist line →
        (∀ a ∈ c, ∀ b ∈ c, a.x = b.x) → c.Sublist (sortByX line))
    ∧ formatLine line
        = String.intercalate " " ((sortByX line).map (fun t => t.text))
    ∧ formatLine [⟨"a", 0, 1⟩, ⟨"", 0, 3⟩, ⟨"b", 0, 5⟩] = "a  b"
    ∧ process_ocr_result (first :: rest)
        = String.intercalate "\n"
            ((clusterLines line_threshold (sortKeyYX (first.map toTextCoord))).map
              formatLine) := by
  refine ⟨List.perm_insertionSort _ _, List.sorted_insertionSort _ _, ?_, rfl, ?_,
    process_eq_intercalate first rest hfirst⟩
  · intro c hsub hties
    exact List.sublist_insertionSort
      (List.pairwise_of_forall_mem_list
        (fun a ha b hb => le_of_eq (hties a ha b hb))) hsub
  · norm_num [formatLine, sortByX, List.insertionSort, List.orderedInsert, rX]
    rfl

/-- Witness for C9 at a two-fragment line and a one-fragment page. -/
theorem C9_formatter_witness :
    (sortByX [⟨"a", 0, 1⟩, ⟨"", 0, 3⟩, ⟨"b", 0, 5⟩]).Perm
      [⟨"a", 0, 1⟩, ⟨"", 0, 3⟩, ⟨"b", 0, 5⟩] :=
  (C9_formatter [⟨"a", 0, 1⟩, ⟨"", 0, 3⟩, ⟨"b", 0, 5⟩] driftItems []
    (by simp [driftItems])).1

/-- Claim C10, counterexample: splitting the formatted output back apart does
not recover the input texts once a fragment's own text contains a space:
for the single fragment `"x y"` the output is `"x y"`, the split recovers
`["x", "y"]`, and that is not a permutation of the input text list
`["x y"]`. -/
theorem C10_split_counterexample :
    process_ocr_result [[⟨mkBox 0 0 10 10, "x y", 1⟩]] = "x y"
    ∧ recoverTexts "x y" = ["x", "y"]
    ∧ ¬ ((recoverTexts (process_ocr_result [[⟨mkBox 0 0 10 10, "x y", 1⟩]])).Perm
          ([(⟨mkBox 0 0 10 10, "x y", 1⟩ : OCRItem)].map (fun it => it.text))) := by
  have h1 : process_ocr_result [[⟨mkBox 0 0 10 10, "x y", 1⟩]] = "x y" := by
    norm_num [process_ocr_result, mkBox, toTextCoord, sortKeyYX,
      List.insertionSort, List.orderedInsert, clusterLines, clusterGo,
      formatLine, sortByX, rX, line_threshold]
    rfl
  have h2 : recoverTexts "x y" = ["x", "y"] := by decide
  refine ⟨h1, h2, ?_⟩
  rw [h1, h2]
  intro hp
  have := hp.length_eq
  simp at this

/-- Claim C10, amended: the clustering step partitions the fragments — the
lines concatenate to a permutation of the input fragment set, so the
multiset of fragment texts carried by the formatted lines is exactly a
permutation of the input texts (none duplicated or dropped), and the output
string is these per-line texts joined with single spaces and newlines.
(Recovering the texts by re-splitting the output string additionally
requires that no fragment text contains a space or newline.) -/
theorem C10_partition (items : List OCRItem) (rest : OCRResult)
    (h : items ≠ []) :
    ((clusterLines line_threshold (sortKeyYX (items.map toTextCoord))).flatten).Perm
        (items.map toTextCoord)
    ∧ (((clusterLines line_threshold (sortKeyYX (items.map toTextCoord))).map
          (fun l => (sortByX l).map (fun t => t.text))).flatten).Perm
        (items.map (fun it => it.text))
    ∧ process_ocr_result (items :: rest)
        = String.intercalate "\n"
            ((clusterLines line_threshold (sortKeyYX (items.map toTextCoord))).map
              formatLine) := by
  refine ⟨?_, ?_, process_eq_intercalate items rest h⟩
  · rw [clusterLines_flatten]
    exact List.perm_insertionSort _ _
  · have p1 := flattenMap_perm (fun l => (sortByX l).map (fun t => t.text))
      (fun l => l.map (fun t => t.text))
      (clusterLines line_threshold (sortKeyYX (items.map toTextCoord)))
      (fun x _ => by
        have := (List.perm_insertionSort rX x).map (fun t : TextCoord => t.text)
        simpa [sortByX] using this)
    refine p1.trans ?_
    rw [← List.map_flatten, clusterLines_flatten]
    have p2 := (List.perm_insertionSort rYX (items.map toTextCoord)).map
      (fun t : TextCoord => t.text)
    refine p2.trans ?_
    rw [List.map_map]
    have heq : List.map ((fun t : TextCoord => t.text) ∘ toTextCoord) items
        = List.map (fun it : OCRItem => it.text) items :=
      List.map_congr_left (fun a _ => rfl)
    rw [heq]

/-- Witness for the amended C10 at the drift example. -/
theorem C10_partition_witness :
    ((clusterLines line_threshold (sortKeyYX (driftItems.map toTextCoord))).flatten).Perm
      (driftItems.map toTextCoord) :=
  (C10_partition driftItems [] (by simp [driftItems])).1

/-- Claim C2: a batch with at least one non-empty filename passes the guard
and produces exactly one outcome per input item, in input order: the result
is the item-wise map of the per-item processor, its length equals the input
length, and the `i`-th outcome is the outcome of the `i`-th input item. -/
theorem C2_batch_order (files : List BatchFile)
    (h : ∃ f ∈ files, f.filename ≠ "") :
    upload_and_ocr_batch (some files)
      = .ok (files.map (fun f => (processItem f).1))
    ∧ (files.map (fun f => (processItem f).1)).length = files.length
    ∧ ∀ (i : Nat) (hi : i < files.length),
        (files.map (fun f => (processItem f).1))[i]?
          = some ((processItem files[i]).1) := by
  refine ⟨batch_ok files h, by simp, ?_⟩
  intro i hi
  rw [List.getElem?_map, List.getElem?_eq_getElem hi]
  rfl

/-- Witness for C2 at a two-item batch with one failing item. -/
theorem C2_batch_order_witness :
    upload_and_ocr_batch (some [okPngFile, failFile])
      = .ok [(processItem okPngFile).1, (processItem failFile).1] :=
  (C2_batch_order [okPngFile, failFile]
    ⟨okPngFile, by simp, by decide⟩).1

/-- Claim C3: every per-item failure is caught at the item boundary: the
batch still returns a structured outcome list (nothing propagates), the
`i`-th outcome is a function of the `i`-th item alone (two batches agreeing
at position `i` produce the same `i`-th outcome), a save or detector
exception becomes an error outcome carrying that exception's message, each
outcome is labelled with its own item's filename, an unsupported file type
is itself an error outcome, and the augmented batch likewise returns one
outcome per item with a transform failure recorded as that item's error
outcome. -/
theorem C3_item_isolation (files files' : List BatchFile) (i : Nat)
    (hi : i < files.length) (hi' : i < files'.length)
    (hag : files[i] = files'[i])
    (h : ∃ f ∈ files, f.filename ≠ "") (h' : ∃ f ∈ files', f.filename ≠ "") :
    (∃ outs, upload_and_ocr_batch (some files) = .ok outs
      ∧ outs.length = files.length
      ∧ outs[i]? = some ((processItem files[i]).1))
    ∧ (∀ outs outs',
        upload_and_ocr_batch (some files) = .ok outs →
        upload_and_ocr_batch (some files') = .ok outs' →
        outs[i]? = outs'[i]?)
    ∧ (∀ msg, files[i].filename ≠ "" → allowed_file files[i].filename = true →
        files[i].world.save = .error msg →
        (processItem files[i]).1 = .error files[i].filename msg)
    ∧ (∀ msg, files[i].filename ≠ "" → allowed_file files[i].filename = true →
        files[i].world.save = .ok () → files[i].world.detect = .error msg →
        (processItem files[i]).1 = .error files[i].filename msg)
    ∧ ((processItem files[i]).1.filename
        = if files[i].filename ≠ "" then files[i].filename else "Unknown")
    ∧ (¬ (files[i].filename ≠ "" ∧ allowed_file files[i].filename = true) →
        (processItem files[i]).1.isError = true)
    ∧ (∀ (gfiles : List AugFile), (∃ g ∈ gfiles, g.filename ≠ "") →
        upload_and_ocr_batch_augmented (some gfiles)
          = .ok (gfiles.map (fun g => (processAugItem g).1)))
    ∧ (∀ (g : AugFile) (orig : OCRResult) (msg : String),
        g.filename ≠ "" → allowed_file g.filename = true →
        g.world.save = .ok () → g.world.detectOriginal = .ok orig →
        g.world.transform = .error msg →
        (processAugItem g).1 = .error g.filename msg) := by
  have hb := batch_ok files h
  have hb' := batch_ok files' h'
  refine ⟨⟨files.map (fun f => (processItem f).1), hb, by simp, ?_⟩,
    ?_, ?_, ?_, ?_, ?_, ?_, ?_⟩
  · rw [List.getElem?_map, List.getElem?_eq_getElem hi]; rfl
  · intro outs outs' ho ho'
    rw [hb] at ho
    rw [hb'] at ho'
    cases ho
    cases ho'
    rw [List.getElem?_map, List.getElem?_map, List.getElem?_eq_getElem hi,
      List.getElem?_eq_getElem hi', hag]
  · intro msg hname hallow hsv
    simp only [processItem]
    rw [if_pos ⟨hname, hallow⟩, hsv]
  · intro msg hname hallow hsv hd
    simp only [processItem]
    rw [if_pos ⟨hname, hallow⟩, hsv, hd]
  · by_cases hc : files[i].filename ≠ "" ∧ allowed_file files[i].filename
    · simp only [processItem]
      rw [if_pos hc, if_pos hc.1]
      rcases hsv : files[i].world.save with m | u
      · rfl
      · rcases hd : files[i].world.detect with m | res <;> rfl
    · simp only [processItem]
      rw [if_neg hc]
      rfl
  · intro hc
    simp only [processItem]
    rw [if_neg hc]
    rfl
  · intro gfiles hg
    exact batch_aug_ok gfiles hg
  · intro g orig msg hname hallow hsave ho htr
    simp only [processAugItem]
    rw [if_pos ⟨hname, hallow⟩, hsave, ho, htr]

/-- Witness for C3 at the one-item batch whose detector raises. -/
theorem C3_item_isolation_witness :
    (processItem failFile).1 = .error "d.png" "boom" :=
  (C3_item_isolation [failFile] [failFile] 0 (by decide) (by decide) rfl
    ⟨failFile, by simp, by decide⟩ ⟨failFile, by simp, by decide⟩).2.2.2.1
    "boom" (by decide) (by decide) rfl rfl

/-- Claim C6: every item's temp-storage trace is well scoped — either nothing
was acquired (validation rejection, or the save itself raised before the
storage existed) or exactly one acquire opens the trace and exactly one
release closes it — for items of the simple batch, items of the augmented
batch, and the single-file endpoint alike. -/
theorem C6_storage_scoped (f : BatchFile) (g : AugFile) (r : Option BatchFile) :
    scopedTrace (processItem f).2
    ∧ scopedTrace (processAugItem g).2
    ∧ scopedTrace (upload_and_ocr r).2 := by
  refine ⟨?_, ?_, ?_⟩
  · by_cases hc : f.filename ≠ "" ∧ allowed_file f.filename
    · simp only [processItem]
      rw [if_pos hc]
      rcases hsv : f.world.save with m | u
      · exact scopedTrace_nil
      · rcases hd : f.world.detect with m | res <;>
          exact scopedTrace_of_mid [.detect] (by decide) (by decide)
    · simp only [processItem]
      rw [if_neg hc]
      exact scopedTrace_nil
  · by_cases hc : g.filename ≠ "" ∧ allowed_file g.filename
    · simp only [processAugItem]
      rw [if_pos hc]
      rcases hsv : g.world.save with m | u
      · exact scopedTrace_nil
      · rcases ho : g.world.detectOriginal with m | res
        · exact scopedTrace_of_mid [.detect] (by decide) (by decide)
        · rcases htr : g.world.transform with m | u'
          · exact scopedTrace_of_mid [.detect, .transform] (by decide) (by decide)
          · rcases he : g.world.detectEnhanced with m | res' <;>
              exact scopedTrace_of_mid [.detect, .transform, .detect]
                (by decide) (by decide)
    · simp only [processAugItem]
      rw [if_neg hc]
      exact scopedTrace_nil
  · match r with
    | none => exact scopedTrace_nil
    | some f =>
      simp only [upload_and_ocr]
      by_cases he : f.filename = ""
      · rw [if_pos he]; exact scopedTrace_nil
      · rw [if_neg he]
        by_cases ha : allowed_file f.filename
        · rw [if_pos ha]
          rcases hsv : f.world.save with m | u
          · exact scopedTrace_nil
          · rcases hd : f.world.detect with m | res <;>
              exact scopedTrace_of_mid [.detect] (by decide) (by decide)
        · rw [if_neg ha]; exact scopedTrace_nil

/-- Witness for C6 at a failing batch item, a succeeding augmented item and
a single-file request. -/
theorem C6_storage_scoped_witness :
    scopedTrace (processItem failFile).2 :=
  (C6_storage_scoped failFile augOkFile (some failFile)).1

/-- Claim C7: a file is accepted exactly when its name splits as
`pre ++ "." ++ ext` with a dot-free `ext` whose lowercasing is `png`, `jpg`
or `jpeg`; a rejected item is recorded as a `File type not allowed` error
with an empty event trace (no processing attempt), and a 3-item batch with
one `.gif` item yields 3 outcomes with only the `.gif` item in error. -/
theorem C7_extension_allowlist (s : String) :
    (allowed_file s = true ↔
      ∃ pre ext : List Char, s.data = pre ++ '.' :: ext ∧ '.' ∉ ext
        ∧ lowerStr ext.asString ∈ ALLOWED_EXTENSIONS)
    ∧ allowed_file "photo.PNG" = true
    ∧ allowed_file "b.JpEg" = true
    ∧ allowed_file "anim.gif" = false
    ∧ allowed_file "noext" = false
    ∧ allowed_file "trailing." = false
    ∧ (∀ f : BatchFile, allowed_file f.filename = false →
        processItem f
          = (.error (if f.filename ≠ "" then f.filename else "Unknown")
              "File type not allowed", []))
    ∧ upload_and_ocr_batch (some [okPngFile, gifFile, okJpgFile])
        = .ok [.success "a.png" "No text found.",
               .error "b.gif" "File type not allowed",
               .success "c.jpg" "No text found."] := by
  refine ⟨?_, by decide, by decide, by decide, by decide, by decide, ?_, by decide⟩
  · constructor
    · intro hal
      rw [allowed_file, Bool.and_eq_true] at hal
      obtain ⟨pre, ext, hdata, hne, hext⟩ := contains_dot_decomp s hal.1
      refine ⟨pre, ext, hdata, hne, ?_⟩
      have h2 := hal.2
      rw [hext] at h2
      simpa using h2
    · rintro ⟨pre, ext, hdata, hne, hmem⟩
      rw [allowed_file, Bool.and_eq_true]
      constructor
      · rw [hdata]
        simp
      · rw [extAfterLastDot_eq s pre ext hdata hne]
        simpa using hmem
  · intro f hfa
    simp only [processItem]
    rw [if_neg (fun hc => Bool.false_ne_true (hfa ▸ hc.2))]

/-- Witness for C7 at the `.gif` filename. -/
theorem C7_extension_allowlist_witness :
    allowed_file "anim.gif" = false :=
  (C7_extension_allowlist "anim.gif").2.2.2.1

/-- Claim C4: in augmented mode, once validation, save and the identity
variant's detection have succeeded, the trace starts with the acquire and
the identity detector call; a failure of the OpenCV transform or of the
enhanced detector makes the whole item an error carrying that message even
though the identity text `process_ocr_result orig` was already computed,
and on success the outcome carries the enhanced text as `text` and the
identity text as `original_text`. -/
theorem C4_augment_after_identity (f : AugFile) (orig : OCRResult)
    (hname : f.filename ≠ "") (hallow : allowed_file f.filename = true)
    (hsave : f.world.save = .ok ())
    (horig : f.world.detectOriginal = .ok orig) :
    (processAugItem f).2.take 2 = [.acquire, .detect]
    ∧ (∀ msg, f.world.transform = .error msg →
        processAugItem f
          = (.error f.filename msg, [.acquire, .detect, .transform, .release]))
    ∧ (∀ msg, f.world.transform = .ok () → f.world.detectEnhanced = .error msg →
        processAugItem f
          = (.error f.filename msg,
             [.acquire, .detect, .transform, .detect, .release]))
    ∧ (∀ aug, f.world.transform = .ok () → f.world.detectEnhanced = .ok aug →
        (processAugItem f).1
          = .success f.filename (process_ocr_result aug) (process_ocr_result orig)
              [("Original", wordCount (process_ocr_result orig)),
               ("Grayscale + Threshold", wordCount (process_ocr_result aug))]) := by
  refine ⟨?_, ?_, ?_, ?_⟩
  · simp only [processAugItem]
    rw [if_pos ⟨hname, hallow⟩]
    rcases htr : f.world.transform with m | u
    · rw [hsave, horig]; rfl
    · rcases he : f.world.detectEnhanced with m | res <;> rw [hsave, horig] <;> rfl
  · intro msg htr
    simp only [processAugItem]
    rw [if_pos ⟨hname, hallow⟩, hsave, horig, htr]
  · intro msg htr he
    simp only [processAugItem]
    rw [if_pos ⟨hname, hallow⟩, hsave, horig, htr, he]
  · intro aug htr he
    simp only [processAugItem]
    rw [if_pos ⟨hname, hallow⟩, hsave, horig, htr, he]

/-- Witness for C4 at an item whose transform raises after a successful
identity pass. -/
theorem C4_augment_after_identity_witness :
    processAugItem c4File
      = (.error "a.png" "cv2 failed", [.acquire, .detect, .transform, .release]) :=
  (C4_augment_after_identity c4File [[⟨mkBox 0 0 10 10, "hi", 1⟩]]
    (by decide) (by decide) rfl rfl).2.1 "cv2 failed" rfl

/-- Claim C5, counterexample: the two variants do *not* run independently.
On `c5File` the identity variant's detector raises while the enhanced
variant's detector would succeed (its oracle returns a fragment reading
`HELLO`), yet the item's outcome is an error dict that carries no
recognized text at all, and the trace shows a single detector call: the
enhanced variant was never attempted. -/
theorem C5_not_independent_counterexample :
    c5File.world.detectEnhanced = .ok [[⟨mkBox 0 0 10 10, "HELLO", 1⟩]]
    ∧ processAugItem c5File
        = (.error "a.png" "detector failed", [.acquire, .detect, .release])
    ∧ (processAugItem c5File).1.texts = []
    ∧ (processAugItem c5File).1.isError = true
    ∧ (processAugItem c5File).2.count .detect = 1 := by
  refine ⟨rfl, ?_, ?_, ?_, ?_⟩ <;> decide

/-- Claim C5, amended: the two transforms are run sequentially and
dependently for each item: if the identity variant's detector raises the
item is an error and the enhanced variant's detector is never invoked (one
`detect` event); if the enhanced transform or detector raises the item is
an error carrying neither variant's text; both texts appear in the outcome
only when every step succeeds. -/
theorem C5_variants_dependent (f : AugFile)
    (hname : f.filename ≠ "") (hallow : allowed_file f.filename = true)
    (hsave : f.world.save = .ok ()) :
    (∀ msg, f.world.detectOriginal = .error msg →
        processAugItem f = (.error f.filename msg, [.acquire, .detect, .release])
        ∧ (processAugItem f).2.count .detect = 1)
    ∧ (∀ orig msg, f.world.detectOriginal = .ok orig →
        (f.world.transform = .error msg
          ∨ (f.world.transform = .ok () ∧ f.world.detectEnhanced = .error msg)) →
        (processAugItem f).1 = .error f.filename msg
        ∧ (processAugItem f).1.texts = [])
    ∧ (∀ orig aug, f.world.detectOriginal = .ok orig →
        f.world.transform = .ok () → f.world.detectEnhanced = .ok aug →
        (processAugItem f).1.texts
          = [process_ocr_result aug, process_ocr_result orig]) := by
  refine ⟨?_, ?_, ?_⟩
  · intro msg ho
    constructor
    · simp only [processAugItem]
      rw [if_pos ⟨hname, hallow⟩, hsave, ho]
    · simp only [processAugItem]
      rw [if_pos ⟨hname, hallow⟩, hsave, ho]
      rfl
  · intro orig msg ho hfail
    rcases hfail with htr | ⟨htr, he⟩
    · constructor
      · simp only [processAugItem]
        rw [if_pos ⟨hname, hallow⟩, hsave, ho, htr]
      · simp only [processAugItem]
        rw [if_pos ⟨hname, hallow⟩, hsave, ho, htr]
        rfl
    · constructor
      · simp only [processAugItem]
        rw [if_pos ⟨hname, hallow⟩, hsave, ho, htr, he]
      · simp only [processAugItem]
        rw [if_pos ⟨hname, hallow⟩, hsave, ho, htr, he]
        rfl
  · intro orig aug ho htr he
    simp only [processAugItem]
    rw [if_pos ⟨hname, hallow⟩, hsave, ho, htr, he]
    rfl

/-- Witness for the amended C5 at `c5File`. -/
theorem C5_variants_dependent_witness :
    processAugItem c5File
      = (.error "a.png" "detector failed", [.acquire, .detect, .release])
    ∧ (processAugItem c5File).2.count .detect = 1 :=
  (C5_variants_dependent c5File (by decide) (by decide) rfl).1
    "detector failed" rfl

end PaddleOCR
